import Mathlib

/-!
Shallow embedding of the `logger` module (src/logger.js): a styled console
logger factory with level filtering, hook dispatch, and collapsible groups.

Side effects against the console sink are modelled as explicit event traces:
an emit call returns the list of sink events it produces together with the
list of hook invocations (hook identifier paired with the log record it
received), in order. The `group` helper returns its event trace (decoration
open/close, callback invocation, promise settlement) and its outcome
(returned value, returned promise, or re-raised error).

Wall-clock time is not computable, so the formatted timestamp string and the
record timestamp are inputs to the functions that use them.
-/

namespace Logger

/-- The six log levels, in the order they are declared in `LOG_LEVELS`. -/
inductive LogLevel
  | debug
  | log
  | info
  | warn
  | error
  | success
deriving DecidableEq, Repr

/-- Log level severity ranking (`LOG_LEVELS` in the source):
lower number = more verbose. -/
def LOG_LEVELS : LogLevel → Nat
  | .debug => 0
  | .log => 1
  | .info => 2
  | .warn => 3
  | .error => 4
  | .success => 5

/-- The name string of a level, as used in the `LOG_LEVELS` object keys. -/
def levelName : LogLevel → String
  | .debug => "debug"
  | .log => "log"
  | .info => "info"
  | .warn => "warn"
  | .error => "error"
  | .success => "success"

/-- Dracula theme default styles (`DEFAULT_STYLES` in the source). -/
def DEFAULT_STYLES : LogLevel → String
  | .debug => "color: #6272a4;"
  | .log => "color: #f8f8f2;"
  | .info => "color: #8be9fd; font-weight: bold;"
  | .warn => "color: #f1fa8c; font-weight: bold;"
  | .error => "color: #ff5555; font-weight: bold;"
  | .success => "color: #50fa7b; font-weight: bold;"

/-- Lookup in the `LOG_LEVELS` object by a raw string key
(`LOG_LEVELS[level]`, which is `undefined` for unrecognized keys). -/
def logLevelsLookup : String → Option Nat
  | "debug" => some 0
  | "log" => some 1
  | "info" => some 2
  | "warn" => some 3
  | "error" => some 4
  | "success" => some 5
  | _ => none

/-- Options passed to `createLogger`. `styles` is the caller's partial style
map (a JS object with at most the six level keys); `level` is the raw string
of the `level` option (default `"debug"`). The JS `namespace` option is
`string | undefined`, modelled as `Option String`. -/
structure LoggerOptions where
  showTimestamp : Bool
  «namespace» : Option String
  styles : LogLevel → Option String
  level : String

/-- The default options object (`options = {}` with the destructuring
defaults applied). -/
def defaultOptions : LoggerOptions :=
  { showTimestamp := false
    «namespace» := none
    styles := fun _ => none
    level := "debug" }

/-- The merged style map `{ ...DEFAULT_STYLES, ...styles }`, read at a level
key: the caller's token if the key is present, else the default token. -/
def mergedStyles (opts : LoggerOptions) (l : LogLevel) : String :=
  match opts.styles l with
  | some t => t
  | none => DEFAULT_STYLES l

/-- The resolved minimum rank `LOG_LEVELS[level] ?? 0`. -/
def minLevel (opts : LoggerOptions) : Nat :=
  (logLevelsLookup opts.level).getD 0

/-- Mutable closure state of a logger instance: the `isEnabled` flag and the
`hooks` set. The JS `Set` of hook callbacks is modelled as an
insertion-ordered duplicate-free list of hook identifiers (hook behaviour is
supplied separately as a function of the identifier). -/
structure LoggerState where
  isEnabled : Bool
  hooks : List Nat
deriving DecidableEq, Repr

/-- The record an emit call passes to each hook (second argument of the hook
call): capture timestamp, the logger's namespace, the level and the args. -/
structure LogRecord (α : Type) where
  timestamp : Nat
  «namespace» : Option String
  level : LogLevel
  args : List α
deriving DecidableEq, Repr

/-- An event against the console sink during an emit call: a styled
`console.log` print, or a `console.warn` report of a hook error. -/
inductive SinkEvent (α : Type)
  | consoleLog (prefixStr : String) (style : String) (args : List α)
  | consoleWarn (msg : String)
deriving DecidableEq, Repr

/-- True on the styled print events. -/
def SinkEvent.isConsoleLog : SinkEvent α → Bool
  | .consoleLog _ _ _ => true
  | .consoleWarn _ => false

/-- True on the warning events. -/
def SinkEvent.isConsoleWarn : SinkEvent α → Bool
  | .consoleLog _ _ _ => false
  | .consoleWarn _ => true

/-- JS truthiness test `if (namespace)` on a `string | undefined` value:
`undefined` and the empty string are falsy. -/
def nsPart : Option String → List String
  | some s => if s = "" then [] else ["[" ++ s ++ "]"]
  | none => []

/-- The behaviour of a registered hook, keyed by hook identifier: invoking
the hook either returns normally or throws an error value. -/
def HookBehavior (α : Type) : Type :=
  Nat → LogLevel → LogRecord α → Except String Unit

/-- The `printStyledLog` helper: composes the prefix parts (optional
timestamp, truthy namespace, upper-cased level tag) and performs one styled
`console.log` call. `ts` is the formatted timestamp string for this call. -/
def printStyledLog (level : LogLevel) (style : String) (showTimestamp : Bool)
    (ns : Option String) (ts : String) (args : List α) : SinkEvent α :=
  let parts : List String :=
    (if showTimestamp then [ts] else []) ++ nsPart ns ++
      ["[" ++ (levelName level).toUpper ++ "]"]
  SinkEvent.consoleLog ("%c" ++ String.intercalate " " parts) style args

/-- The `for (const hook of hooks)` dispatch loop in `emit`: invokes each
hook in order with `(level, record)`; a thrown error is caught and reported
with one `console.warn` call, and iteration continues. Returns the sink
events produced and the list of hook invocations, in order. -/
def runHooks (beh : HookBehavior α) (level : LogLevel) (record : LogRecord α) :
    List Nat → List (SinkEvent α) × List (Nat × LogRecord α)
  | [] => ([], [])
  | h :: rest =>
    let tail := runHooks beh level record rest
    match beh h level record with
    | .ok _ => (tail.1, (h, record) :: tail.2)
    | .error e =>
      (SinkEvent.consoleWarn ("[Logger] Hook error: " ++ e) :: tail.1,
        (h, record) :: tail.2)

/-- The `emit` function: gate on the enabled flag and the level rank, then
one styled print followed by hook dispatch. `now` is the record's capture
timestamp and `ts` the formatted timestamp string. Returns the sink events
and the hook invocations of the call. -/
def emit (opts : LoggerOptions) (st : LoggerState) (beh : HookBehavior α)
    (now : Nat) (ts : String) (level : LogLevel) (args : List α) :
    List (SinkEvent α) × List (Nat × LogRecord α) :=
  if st.isEnabled = false ∨ LOG_LEVELS level < minLevel opts then ([], [])
  else
    let record : LogRecord α :=
      { timestamp := now, «namespace» := opts.«namespace»
        level := level, args := args }
    let hookOut := runHooks beh level record st.hooks
    (printStyledLog level (mergedStyles opts level) opts.showTimestamp
        opts.«namespace» ts args :: hookOut.1,
      hookOut.2)

/-- The outcome of invoking the `group` callback once: an immediate return
value, an actual `Promise` instance (tagged with its eventual settlement:
fulfillment value or rejection reason), or a synchronous throw. -/
inductive CallbackResult (α : Type)
  | value (v : α)
  | promise (outcome : Except String α)
  | throws (e : String)
deriving Repr

/-- An event in the timeline of a `group` call: the collapsed-group open
decoration, the (single) callback invocation, the settlement of the
callback's returned promise, and the `console.groupEnd` close decoration. -/
inductive GroupEvent
  | groupCollapsed (title : String) (style : String)
  | runCallback
  | settled
  | groupEnd
deriving DecidableEq, Repr

/-- True on the open-decoration events. -/
def GroupEvent.isGroupCollapsed : GroupEvent → Bool
  | .groupCollapsed _ _ => true
  | _ => false

/-- True on the close-decoration events. -/
def GroupEvent.isGroupEnd : GroupEvent → Bool
  | .groupEnd => true
  | _ => false

/-- True on the promise-settlement event. -/
def GroupEvent.isSettled : GroupEvent → Bool
  | .settled => true
  | _ => false

/-- The value a `group` call delivers to its caller: a returned value, a
returned promise (with its eventual settlement), or a re-raised error. -/
inductive GroupResult (α : Type)
  | value (v : α)
  | promise (outcome : Except String α)
  | thrown (e : String)
deriving Repr

/-- The `group` function: computes `shouldRender` once at call time from the
enabled flag and the fixed `log` level's rank; opens the collapsed group
decoration when rendering; invokes the callback once; for a `Promise` result
defers the close decoration (via `.finally`) until the promise settles and
returns a promise with the same outcome; for an immediate value closes and
returns it; for a synchronous throw closes first and re-raises the same
error. Returns the event timeline and the outcome. -/
def group (opts : LoggerOptions) (isEnabled : Bool) (ts : String)
    (title : String) (cb : CallbackResult α) :
    List GroupEvent × GroupResult α :=
  let shouldRender :=
    isEnabled && decide (LOG_LEVELS LogLevel.log ≥ minLevel opts)
  let parts : List String :=
    (if opts.showTimestamp then [ts] else []) ++ nsPart opts.«namespace» ++
      ["[GROUP] " ++ title]
  let openEvs : List GroupEvent :=
    if shouldRender then
      [GroupEvent.groupCollapsed ("%c" ++ String.intercalate " " parts)
        "font-weight: bold; color: #888;"]
    else []
  let closeEvs : List GroupEvent :=
    if shouldRender then [GroupEvent.groupEnd] else []
  match cb with
  | .value v =>
    (openEvs ++ [GroupEvent.runCallback] ++ closeEvs, GroupResult.value v)
  | .promise outcome =>
    (openEvs ++ [GroupEvent.runCallback, GroupEvent.settled] ++ closeEvs,
      GroupResult.promise outcome)
  | .throws e =>
    (openEvs ++ [GroupEvent.runCallback] ++ closeEvs, GroupResult.thrown e)

/-- The `setEnabled` method: coerces to boolean and stores. -/
def setEnabled (st : LoggerState) (value : Bool) : LoggerState :=
  { st with isEnabled := value }

/-- `hooks.add(callback)`: a JS `Set` add is a no-op when the identical
reference is already present, and otherwise appends in insertion order. -/
def addHook (hooks : List Nat) (h : Nat) : List Nat :=
  if h ∈ hooks then hooks else hooks ++ [h]

/-- `hooks.delete(callback)`: removes the (unique) occurrence of the exact
reference, a no-op when absent. -/
def removeHook (hooks : List Nat) (h : Nat) : List Nat :=
  hooks.erase h

/-- The `onLog` method: adds the callback to the hook set. The returned
unsubscribe closure is `removeHook · h`. -/
def onLog (st : LoggerState) (h : Nat) : LoggerState :=
  { st with hooks := addHook st.hooks h }

/-- The sink warning event produced by a hook, when the hook throws. -/
def warnOf (beh : HookBehavior α) (level : LogLevel) (record : LogRecord α)
    (h : Nat) : Option (SinkEvent α) :=
  match beh h level record with
  | .ok _ => none
  | .error e => some (SinkEvent.consoleWarn ("[Logger] Hook error: " ++ e))

/-- Sample partial style override used in concrete evaluations: overrides
only the `debug` level. -/
def sampleStyles : LogLevel → Option String
  | .debug => some "color: red;"
  | _ => none

/-- Options with the sample partial style override. -/
def optsOverride : LoggerOptions :=
  { defaultOptions with styles := sampleStyles }

/-- A hook behaviour where every hook returns normally. -/
def behOk : HookBehavior Nat := fun _ _ _ => Except.ok ()

/-- A hook behaviour where hook 2 throws and all other hooks return
normally. -/
def behThrow : HookBehavior Nat := fun h _ _ =>
  if h = 2 then Except.error "boom" else Except.ok ()

theorem runHooks_snd (beh : HookBehavior α) (level : LogLevel)
    (record : LogRecord α) (hooks : List Nat) :
    (runHooks beh level record hooks).2 = hooks.map (fun h => (h, record)) := by
  induction hooks with
  | nil => rfl
  | cons h rest ih =>
    simp only [runHooks, List.map_cons]
    cases hbh : beh h level record <;> simp [hbh, ih]

theorem runHooks_fst (beh : HookBehavior α) (level : LogLevel)
    (record : LogRecord α) (hooks : List Nat) :
    (runHooks beh level record hooks).1 =
      hooks.filterMap (warnOf beh level record) := by
  induction hooks with
  | nil => rfl
  | cons h rest ih =>
    simp only [runHooks, List.filterMap_cons, warnOf]
    cases hbh : beh h level record <;> simp [hbh, ih]

theorem filterMap_warnOf_ok (beh : HookBehavior α) (level : LogLevel)
    (record : LogRecord α) (l : List Nat)
    (hok : ∀ h ∈ l, beh h level record = Except.ok ()) :
    l.filterMap (warnOf beh level record) = [] := by
  induction l with
  | nil => rfl
  | cons h rest ih =>
    have h1 := hok h (List.mem_cons_self h rest)
    simp only [List.filterMap_cons, warnOf, h1]
    exact ih fun g hg => hok g (List.mem_cons_of_mem h hg)

theorem runHooks_fst_all_warn (beh : HookBehavior α) (level : LogLevel)
    (record : LogRecord α) (hooks : List Nat) :
    ∀ e ∈ (runHooks beh level record hooks).1, e.isConsoleWarn = true := by
  induction hooks with
  | nil => intro e he; cases he
  | cons h rest ih =>
    intro e he
    simp only [runHooks] at he
    cases hbh : beh h level record with
    | ok u => rw [hbh] at he; exact ih e he
    | error msg =>
      rw [hbh] at he
      rcases List.mem_cons.mp he with rfl | he
      · rfl
      · exact ih e he

theorem emit_pass (opts : LoggerOptions) (st : LoggerState)
    (beh : HookBehavior α) (now : Nat) (ts : String) (level : LogLevel)
    (args : List α) (hen : st.isEnabled = true)
    (hmin : minLevel opts ≤ LOG_LEVELS level) :
    emit opts st beh now ts level args =
      (printStyledLog level (mergedStyles opts level) opts.showTimestamp
          opts.«namespace» ts args ::
        (runHooks beh level ⟨now, opts.«namespace», level, args⟩ st.hooks).1,
       (runHooks beh level ⟨now, opts.«namespace», level, args⟩ st.hooks).2) := by
  rw [emit, if_neg]
  push_neg
  exact ⟨by simp [hen], hmin⟩

/-- C1: when the logger is enabled and the level's rank is at least the
configured minimum rank, an emit call produces exactly one sink print call
and invokes every registered hook exactly once, in registration order, with
a record whose level field equals the emitted level. -/
theorem emit_open_gate_one_print_all_hooks (opts : LoggerOptions)
    (st : LoggerState) (beh : HookBehavior α) (now : Nat) (ts : String)
    (level : LogLevel) (args : List α) (hen : st.isEnabled = true)
    (hmin : minLevel opts ≤ LOG_LEVELS level) :
    (emit opts st beh now ts level args).1.countP SinkEvent.isConsoleLog = 1 ∧
    (emit opts st beh now ts level args).2 =
      st.hooks.map (fun h => (h, ⟨now, opts.«namespace», level, args⟩)) ∧
    ∀ c ∈ (emit opts st beh now ts level args).2, c.2.level = level := by
  rw [emit_pass opts st beh now ts level args hen hmin]
  refine ⟨?_, ?_, ?_⟩
  · rw [List.countP_cons_of_pos _ _ (by rfl)]
    have hz : (runHooks beh level ⟨now, opts.«namespace», level, args⟩
        st.hooks).1.countP SinkEvent.isConsoleLog = 0 := by
      rw [List.countP_eq_zero]
      intro e he
      have hw := runHooks_fst_all_warn beh level _ st.hooks e he
      cases e with
      | consoleLog p s a => simp [SinkEvent.isConsoleWarn] at hw
      | consoleWarn m => simp [SinkEvent.isConsoleLog]
    simp [hz]
  · exact runHooks_snd beh level _ st.hooks
  · intro c hc
    rw [runHooks_snd beh level _ st.hooks] at hc
    rcases List.mem_map.mp hc with ⟨h, _, rfl⟩
    rfl

/-- Witness for C1 at a concrete logger: default options, two registered
hooks, level `info`, one argument. -/
theorem emit_open_gate_one_print_all_hooks_witness :
    (emit defaultOptions ⟨true, [7, 3]⟩ behOk 0 "[12:00:00]" LogLevel.info
        [5]).1.countP SinkEvent.isConsoleLog = 1 ∧
    (emit defaultOptions ⟨true, [7, 3]⟩ behOk 0 "[12:00:00]" LogLevel.info
        [5]).2 =
      [7, 3].map (fun h => (h, ⟨0, none, LogLevel.info, [5]⟩)) ∧
    ∀ c ∈ (emit defaultOptions ⟨true, [7, 3]⟩ behOk 0 "[12:00:00]"
        LogLevel.info [5]).2, c.2.level = LogLevel.info :=
  emit_open_gate_one_print_all_hooks defaultOptions ⟨true, [7, 3]⟩ behOk 0
    "[12:00:00]" LogLevel.info [5] rfl (by decide)

/-- C2: when the logger is disabled or the level's rank is strictly below
the configured minimum rank, an emit call produces no sink events and no
hook invocations. -/
theorem emit_closed_gate_no_effects (opts : LoggerOptions) (st : LoggerState)
    (beh : HookBehavior α) (now : Nat) (ts : String) (level : LogLevel)
    (args : List α)
    (hgate : st.isEnabled = false ∨ LOG_LEVELS level < minLevel opts) :
    emit opts st beh now ts level args = ([], []) := by
  rw [emit, if_pos hgate]

/-- Witness for C2 at a concrete logger: a disabled logger with a registered
hook, and an enabled logger filtered at level `warn` receiving `info`. -/
theorem emit_closed_gate_no_effects_witness :
    emit defaultOptions ⟨false, [7]⟩ behOk 0 "[12:00:00]" LogLevel.error [5] =
      ([], []) ∧
    emit { defaultOptions with level := "warn" } ⟨true, [7]⟩ behOk 0
        "[12:00:00]" LogLevel.info [5] = ([], []) :=
  ⟨emit_closed_gate_no_effects defaultOptions ⟨false, [7]⟩ behOk 0
      "[12:00:00]" LogLevel.error [5] (Or.inl rfl),
   emit_closed_gate_no_effects { defaultOptions with level := "warn" }
      ⟨true, [7]⟩ behOk 0 "[12:00:00]" LogLevel.info [5] (Or.inr (by decide))⟩

/-- C3: when an emit call passes the gate and one registered hook throws
while all others return normally, the error is reported exactly once on the
sink's warning channel, and every registered hook — those before and those
after the throwing one — is still invoked, in registration order; the call
still returns a value (it never raises). -/
theorem emit_hook_throw_isolated (opts : LoggerOptions) (st : LoggerState)
    (beh : HookBehavior α) (now : Nat) (ts : String) (level : LogLevel)
    (args : List α) (pre post : List Nat) (hbad : Nat) (e : String)
    (hen : st.isEnabled = true) (hmin : minLevel opts ≤ LOG_LEVELS level)
    (hhooks : st.hooks = pre ++ hbad :: post)
    (hthrow : beh hbad level ⟨now, opts.«namespace», level, args⟩ =
      Except.error e)
    (hok : ∀ h ∈ pre ++ post,
      beh h level ⟨now, opts.«namespace», level, args⟩ = Except.ok ()) :
    (emit opts st beh now ts level args).1.countP SinkEvent.isConsoleWarn =
      1 ∧
    (emit opts st beh now ts level args).2.map Prod.fst =
      pre ++ hbad :: post := by
  rw [emit_pass opts st beh now ts level args hen hmin]
  constructor
  · rw [List.countP_cons_of_neg _ _ (by simp [printStyledLog,
      SinkEvent.isConsoleWarn])]
    rw [runHooks_fst, hhooks, List.filterMap_append, List.filterMap_cons]
    have hpre : pre.filterMap
        (warnOf beh level ⟨now, opts.«namespace», level, args⟩) = [] :=
      filterMap_warnOf_ok _ _ _ _ fun h hh =>
        hok h (List.mem_append_left _ hh)
    have hpost : post.filterMap
        (warnOf beh level ⟨now, opts.«namespace», level, args⟩) = [] :=
      filterMap_warnOf_ok _ _ _ _ fun h hh =>
        hok h (List.mem_append_right _ hh)
    rw [warnOf, hthrow]
    simp [hpre, hpost, SinkEvent.isConsoleWarn]
  · rw [runHooks_snd, hhooks]
    simp [Function.comp_def]

/-- Witness for C3 at a concrete logger: hooks 1, 2, 3 registered, hook 2
throws, the others return normally. -/
theorem emit_hook_throw_isolated_witness :
    (emit defaultOptions ⟨true, [1, 2, 3]⟩ behThrow 0 "[12:00:00]"
        LogLevel.warn []).1.countP SinkEvent.isConsoleWarn = 1 ∧
    (emit defaultOptions ⟨true, [1, 2, 3]⟩ behThrow 0 "[12:00:00]"
        LogLevel.warn []).2.map Prod.fst = [1] ++ 2 :: [3] :=
  emit_hook_throw_isolated defaultOptions ⟨true, [1, 2, 3]⟩ behThrow 0
    "[12:00:00]" LogLevel.warn [] [1] [3] 2 "boom" rfl (by decide) rfl rfl
    (by intro h hh
        rcases List.mem_cons.mp hh with rfl | hh
        · rfl
        · rcases List.mem_cons.mp hh with rfl | hh
          · rfl
          · cases hh)

/-- C4: a group call invokes its callback exactly once, whatever the enabled
flag, the minimum level and the callback's outcome are; only the decoration
is conditional. -/
theorem group_callback_runs_once (opts : LoggerOptions) (isEnabled : Bool)
    (ts title : String) (cb : CallbackResult α) :
    (group opts isEnabled ts title cb).1.count GroupEvent.runCallback = 1 := by
  cases cb <;> simp only [group] <;> split <;>
    simp [List.count_append, List.count_cons, List.count_nil]

/-- C5: when the callback returns a deferred computation, the value returned
by group settles with the same outcome as that computation; no close
decoration occurs before the settlement event; and the decoration, when
opened, is closed (opens and closes balance). -/
theorem group_promise_same_outcome_close_after (opts : LoggerOptions)
    (isEnabled : Bool) (ts title : String) (outcome : Except String α) :
    (group opts isEnabled ts title (CallbackResult.promise outcome)).2 =
      GroupResult.promise outcome ∧
    GroupEvent.groupEnd ∉
      (group opts isEnabled ts title
          (CallbackResult.promise outcome)).1.takeWhile
        (fun e => !GroupEvent.isSettled e) ∧
    (group opts isEnabled ts title
        (CallbackResult.promise outcome)).1.countP
      GroupEvent.isGroupCollapsed =
    (group opts isEnabled ts title
        (CallbackResult.promise outcome)).1.countP GroupEvent.isGroupEnd := by
  refine ⟨by simp only [group], ?_, ?_⟩ <;> simp only [group] <;> split <;>
    simp [List.takeWhile, GroupEvent.isSettled, GroupEvent.isGroupCollapsed,
      GroupEvent.isGroupEnd]

/-- C6: when the callback throws synchronously, the error delivered to the
caller is the identical thrown value, opens and closes of the decoration
balance (the group never stays open), and when the decoration was opened the
very last event is its close — the close happens before the error leaves the
call. -/
theorem group_sync_throw_closes_then_rethrows (opts : LoggerOptions)
    (isEnabled : Bool) (ts title e : String) :
    (group opts isEnabled ts title (CallbackResult.throws e :
        CallbackResult α)).2 = GroupResult.thrown e ∧
    (group opts isEnabled ts title (CallbackResult.throws e :
        CallbackResult α)).1.countP GroupEvent.isGroupCollapsed =
      (group opts isEnabled ts title (CallbackResult.throws e :
          CallbackResult α)).1.countP GroupEvent.isGroupEnd ∧
    ((∃ t s, GroupEvent.groupCollapsed t s ∈
        (group opts isEnabled ts title (CallbackResult.throws e :
            CallbackResult α)).1) →
      (group opts isEnabled ts title (CallbackResult.throws e :
          CallbackResult α)).1.getLast? = some GroupEvent.groupEnd) := by
  refine ⟨by simp only [group], ?_, ?_⟩ <;> simp only [group] <;> split <;>
    simp [GroupEvent.isGroupCollapsed, GroupEvent.isGroupEnd]

/-- C7: the decoration is rendered if and only if, at call time, the logger
is enabled and the fixed log level's rank is at least the configured
minimum rank — independently of the callback's outcome. -/
theorem group_render_iff_log_gate (opts : LoggerOptions) (isEnabled : Bool)
    (ts title : String) (cb : CallbackResult α) :
    (∃ t s, GroupEvent.groupCollapsed t s ∈
        (group opts isEnabled ts title cb).1) ↔
      (isEnabled = true ∧ minLevel opts ≤ LOG_LEVELS LogLevel.log) := by
  cases cb <;> simp only [group] <;> split <;>
    rename_i hcond <;>
    simp only [ge_iff_le, Bool.and_eq_true, decide_eq_true_eq] at hcond <;>
    simp [hcond]

/-- Witness for C4 at a concrete call: a disabled logger still runs the
callback exactly once. -/
theorem group_callback_runs_once_witness :
    (group defaultOptions false "[12:00:00]" "T"
        (CallbackResult.value (5 : Nat))).1.count GroupEvent.runCallback =
      1 :=
  group_callback_runs_once defaultOptions false "[12:00:00]" "T"
    (CallbackResult.value 5)

/-- Witness for C5 at a concrete call: an enabled logger and a promise that
fulfills with 5. -/
theorem group_promise_same_outcome_close_after_witness :
    (group defaultOptions true "[12:00:00]" "T"
        (CallbackResult.promise (Except.ok (5 : Nat)))).2 =
      GroupResult.promise (Except.ok 5) ∧
    GroupEvent.groupEnd ∉
      (group defaultOptions true "[12:00:00]" "T"
          (CallbackResult.promise (Except.ok (5 : Nat)))).1.takeWhile
        (fun e => !GroupEvent.isSettled e) ∧
    (group defaultOptions true "[12:00:00]" "T"
        (CallbackResult.promise (Except.ok (5 : Nat)))).1.countP
      GroupEvent.isGroupCollapsed =
    (group defaultOptions true "[12:00:00]" "T"
        (CallbackResult.promise (Except.ok (5 : Nat)))).1.countP
      GroupEvent.isGroupEnd :=
  group_promise_same_outcome_close_after defaultOptions true "[12:00:00]" "T"
    (Except.ok 5)

/-- Witness for C6 at a concrete call: an enabled logger whose callback
throws; the thrown value comes back and the trace ends with the close
decoration. -/
theorem group_sync_throw_closes_then_rethrows_witness :
    (group defaultOptions true "[12:00:00]" "T" (CallbackResult.throws "err" :
        CallbackResult Nat)).2 = GroupResult.thrown "err" ∧
    (group defaultOptions true "[12:00:00]" "T" (CallbackResult.throws "err" :
        CallbackResult Nat)).1.getLast? = some GroupEvent.groupEnd :=
  ⟨(group_sync_throw_closes_then_rethrows defaultOptions true "[12:00:00]"
      "T" "err" (α := Nat)).1,
   (group_sync_throw_closes_then_rethrows defaultOptions true "[12:00:00]"
      "T" "err" (α := Nat)).2.2
    ⟨"%c[GROUP] T", "font-weight: bold; color: #888;", by decide⟩⟩

/-- Witness for C7 at a concrete call: with minimum level `warn` the group
decoration of an enabled logger is not rendered. -/
theorem group_render_iff_log_gate_witness :
    ¬(∃ t s, GroupEvent.groupCollapsed t s ∈
        (group { defaultOptions with level := "warn" } true "[12:00:00]" "T"
            (CallbackResult.value (5 : Nat))).1) :=
  fun hex =>
    absurd ((group_render_iff_log_gate { defaultOptions with level := "warn" }
      true "[12:00:00]" "T" (CallbackResult.value (5 : Nat))).mp hex).2
      (by decide)

/-- C8: the merged style map resolves an overridden level to exactly the
caller-supplied token and a non-overridden level to the default token, and
every level resolves to some token. -/
theorem mergedStyles_merge (opts : LoggerOptions) (l : LogLevel) :
    (∀ t, opts.styles l = some t → mergedStyles opts l = t) ∧
    (opts.styles l = none → mergedStyles opts l = DEFAULT_STYLES l) ∧
    (∃ t, mergedStyles opts l = t) := by
  refine ⟨?_, ?_, ⟨mergedStyles opts l, rfl⟩⟩
  · intro t ht; simp [mergedStyles, ht]
  · intro hn; simp [mergedStyles, hn]

/-- Witness for C8 at the sample override: `debug` is overridden to the
supplied token, `warn` falls back to its default token. -/
theorem mergedStyles_merge_witness :
    mergedStyles optsOverride LogLevel.debug = "color: red;" ∧
    mergedStyles optsOverride LogLevel.warn = DEFAULT_STYLES LogLevel.warn :=
  ⟨(mergedStyles_merge optsOverride LogLevel.debug).1 "color: red;" rfl,
   (mergedStyles_merge optsOverride LogLevel.warn).2.1 rfl⟩

/-- C9: registering the identical hook reference twice is idempotent;
unsubscribing is idempotent; after unsubscribing, the removed hook is no
longer registered, every other hook still is, and an emit call through the
open gate invokes exactly the remaining hooks, in order. -/
theorem onLog_unsubscribe_removes_exactly (opts : LoggerOptions)
    (beh : HookBehavior α) (now : Nat) (ts : String) (level : LogLevel)
    (args : List α) (hooks : List Nat) (h : Nat) (hnd : hooks.Nodup)
    (hmin : minLevel opts ≤ LOG_LEVELS level) :
    addHook (addHook hooks h) h = addHook hooks h ∧
    removeHook (removeHook hooks h) h = removeHook hooks h ∧
    h ∉ removeHook hooks h ∧
    (∀ g ∈ hooks, g ≠ h → g ∈ removeHook hooks h) ∧
    (emit opts ⟨true, removeHook hooks h⟩ beh now ts level args).2.map
      Prod.fst = removeHook hooks h := by
  have hne : h ∉ hooks.erase h := fun hmem =>
    absurd rfl ((hnd.mem_erase_iff.mp hmem).1)
  refine ⟨?_, ?_, hne, ?_, ?_⟩
  · by_cases hm : h ∈ hooks <;> simp [addHook, hm]
  · simp [removeHook, List.erase_of_not_mem hne]
  · intro g hg hgne
    exact (List.mem_erase_of_ne hgne).mpr hg
  · rw [emit_pass opts ⟨true, removeHook hooks h⟩ beh now ts level args rfl
      hmin]
    rw [runHooks_snd]
    simp [Function.comp_def]

/-- Witness for C9 at a concrete registry: hooks 1, 2, 3 with hook 2
unsubscribed, emitting at level `error`. -/
theorem onLog_unsubscribe_removes_exactly_witness :
    addHook (addHook [1, 2, 3] 2) 2 = addHook [1, 2, 3] 2 ∧
    removeHook (removeHook [1, 2, 3] 2) 2 = removeHook [1, 2, 3] 2 ∧
    2 ∉ removeHook [1, 2, 3] 2 ∧
    (∀ g ∈ [1, 2, 3], g ≠ 2 → g ∈ removeHook [1, 2, 3] 2) ∧
    (emit defaultOptions ⟨true, removeHook [1, 2, 3] 2⟩ behOk 0 "[12:00:00]"
        LogLevel.error []).2.map Prod.fst = removeHook [1, 2, 3] 2 :=
  onLog_unsubscribe_removes_exactly defaultOptions behOk 0 "[12:00:00]"
    LogLevel.error [] [1, 2, 3] 2 (by decide) (by decide)

/-- C10: an empty-string namespace is treated exactly like an absent
namespace: the styled-print prefix composition and the whole group call are
unchanged when `namespace` is the empty string instead of absent, because
the inclusion check tests truthiness of the value. -/
theorem empty_namespace_as_absent (level : LogLevel) (style : String)
    (showTimestamp : Bool) (ts : String) (args : List α)
    (opts : LoggerOptions) (isEnabled : Bool) (title : String)
    (cb : CallbackResult β) :
    printStyledLog level style showTimestamp (some "") ts args =
      printStyledLog level style showTimestamp none ts args ∧
    group { opts with «namespace» := some "" } isEnabled ts title cb =
      group { opts with «namespace» := none } isEnabled ts title cb := by
  constructor
  · simp [printStyledLog, nsPart]
  · simp [group, nsPart, minLevel]

/-- Witness for C10 at a concrete call: empty-string namespace gives the
same print event and the same group trace as no namespace. -/
theorem empty_namespace_as_absent_witness :
    printStyledLog LogLevel.info "s" true (some "") "[12:00:00]"
        ([5] : List Nat) =
      printStyledLog LogLevel.info "s" true none "[12:00:00]" [5] ∧
    group { defaultOptions with «namespace» := some "" } true "[12:00:00]"
        "T" (CallbackResult.value (5 : Nat)) =
      group { defaultOptions with «namespace» := none } true "[12:00:00]"
        "T" (CallbackResult.value 5) :=
  empty_namespace_as_absent LogLevel.info "s" true "[12:00:00]" [5]
    defaultOptions true "T" (CallbackResult.value 5)

end Logger
